import Mathlib

/-!
Shallow embedding of the core simulation of the Ann Nova Defense game
(src/src/App.tsx).  Every JavaScript number that carries a coordinate,
radius, speed, distance or timestamp is embedded as a real number; entity
ids and ammo counts as integers; the score as a natural number.  All the
constants the source manipulates (1.5, 0.8, 20, 30, 80, ...) are exactly
representable in binary floating point or reached through exact float
arithmetic at the magnitudes involved, so exact real arithmetic is a
faithful model of the float arithmetic at every input used below.
JavaScript's unguarded division by a zero distance produces NaN; since the
reals have no NaN, a NaN-corrupted position is modelled as `none`
(an `Option RPoint`), and every comparison against a NaN position is false,
exactly as in JavaScript.  Randomness (`Math.random()`) and the frame
timestamp are externalized as explicit tick inputs.
-/

namespace AnnDefense

/-- A 2D point with real coordinates (source type `Point`, App.tsx line 12). -/
@[ext]
structure RPoint where
  x : ℝ
  y : ℝ

/-- Source `Rocket` (App.tsx lines 14-21).  The `color` field is pure
presentation and is dropped.  `current` is `none` when the position has been
corrupted to NaN by the unguarded zero-distance division. -/
structure Rocket where
  id : ℤ
  start : RPoint
  current : Option RPoint
  target : RPoint
  speed : ℝ

/-- Source `Missile` (App.tsx lines 23-30). -/
structure Missile where
  id : ℤ
  start : RPoint
  current : Option RPoint
  target : RPoint
  speed : ℝ
  turretIndex : ℕ

/-- Source `Explosion` (App.tsx lines 32-39). -/
structure Explosion where
  id : ℤ
  pos : RPoint
  radius : ℝ
  maxRadius : ℝ
  growing : Bool
  done : Bool

/-- Source `City` (App.tsx lines 41-45). -/
structure City where
  id : ℤ
  x : ℝ
  active : Bool

/-- Source `Turret` (App.tsx lines 47-53). -/
structure Turret where
  id : ℤ
  x : ℝ
  ammo : ℤ
  maxAmmo : ℤ
  active : Bool

/-- Source `GameState` (App.tsx line 55). -/
inductive GState where
  | START
  | PLAYING
  | WON
  | LOST
deriving DecidableEq

/-- The mutable world state of one match: the entity refs, the committed
score, the id counter and the last spawn timestamp (App.tsx lines 97-109). -/
structure World where
  rockets : List Rocket
  missiles : List Missile
  explosions : List Explosion
  cities : List City
  turrets : List Turret
  score : ℕ
  nextId : ℤ
  lastSpawn : ℝ
  gameState : GState

/-- Externalized per-tick inputs: the frame timestamp, the canvas logical
size, and the values drawn from `Math.random()` on this tick (the spawn x
position, already scaled by the width, and the chosen index into the
active-target pool, already floored into `0 ≤ randPick < pool size`; it is
reduced modulo the pool size to keep the definition total). -/
structure TickInput where
  time : ℝ
  width : ℝ
  height : ℝ
  randX : ℝ
  randPick : ℕ

/-- Source `getDistance` (App.tsx line 93): Euclidean distance. -/
noncomputable def getDistance (p1 p2 : RPoint) : ℝ :=
  Real.sqrt ((p1.x - p2.x) ^ 2 + (p1.y - p2.y) ^ 2)

/-- One kinematics step for a projectile (App.tsx lines 198-205 for rockets,
233-240 for missiles): unit direction from `s` to `t` scaled by `v`, added to
`c`.  The source divides by the distance with no guard; at distance 0 both
numerators are also 0, so both quotients are JavaScript `0/0 = NaN`,
corrupting the position, which is modelled as `none`. -/
noncomputable def moveStep (s t c : RPoint) (v : ℝ) : Option RPoint :=
  let dx := t.x - s.x
  let dy := t.y - s.y
  let dist := Real.sqrt (dx * dx + dy * dy)
  if dist = 0 then none
  else some ⟨c.x + dx / dist * v, c.y + dy / dist * v⟩

/-- Kinematics on a possibly already NaN-corrupted position: NaN plus
anything stays NaN. -/
noncomputable def moveCur (s t : RPoint) (c : Option RPoint) (v : ℝ) : Option RPoint :=
  c.bind fun p => moveStep s t p v

/-- One radius-animation step of an explosion (App.tsx lines 259-265):
grow by 1.5 until the radius reaches `maxRadius`, then shrink by 0.8 until
it drops to 0 or below, which sets `done`. -/
noncomputable def updExp (e : Explosion) : Explosion :=
  if e.growing then
    let r := e.radius + 1.5
    if r ≥ e.maxRadius then { e with radius := r, growing := false }
    else { e with radius := r }
  else
    let r := e.radius - 0.8
    if r ≤ 0 then { e with radius := r, done := true }
    else { e with radius := r }

/-- The explosion-vs-rocket collision test (App.tsx line 269):
`getDistance(exp.pos, rocket.current) < exp.radius`.  A NaN rocket position
compares false, as in JavaScript. -/
noncomputable def hitB (e : Explosion) (r : Rocket) : Bool :=
  match r.current with
  | none => false
  | some p => decide (getDistance e.pos p < e.radius)

/-- Spawn interval (App.tsx line 173):
`Math.max(500, 2000 - (score / 100) * 200)`. -/
noncomputable def spawnRate (score : ℕ) : ℝ :=
  max 500 (2000 - ((score : ℝ) / 100) * 200)

/-- The x positions of the active installations, cities first then turrets,
as pooled at App.tsx lines 177-180. -/
def activeTargetXs (w : World) : List ℝ :=
  (w.cities.filter (fun c => c.active)).map (fun c => c.x) ++
    (w.turrets.filter (fun t => t.active)).map (fun t => t.x)

/-- Sub-step 1, the spawner (App.tsx lines 172-194).  When the interval has
elapsed, pick a random top-edge start `randX` and a random active
installation as target; the rocket falls to the ground plane
`height - 20` at speed `(1 + score/500) * 0.8`.  `lastSpawn` is refreshed
whether or not a rocket was actually created. -/
noncomputable def spawnStep (inp : TickInput) (w : World) : World :=
  if inp.time - w.lastSpawn > spawnRate w.score then
    let xs := activeTargetXs w
    if xs.length > 0 then
      let tx := xs.getD (inp.randPick % xs.length) 0
      { w with
          rockets := w.rockets ++
            [⟨w.nextId, ⟨inp.randX, 0⟩, some ⟨inp.randX, 0⟩, ⟨tx, inp.height - 20⟩,
              (1 + (w.score : ℝ) / 500) * 0.8⟩],
          nextId := w.nextId + 1,
          lastSpawn := inp.time }
    else { w with lastSpawn := inp.time }
  else w

/-- Accumulator for the rocket update pass. -/
structure RockOut where
  rockets : List Rocket
  cities : List City
  turrets : List Turret
  explosions : List Explosion
  nextId : ℤ

/-- The body of the rocket `forEach` (App.tsx lines 197-228), processed in
array order: move the rocket; if its (non-NaN) position has reached the
target's y it impacts, pushing a `maxRadius = 30` explosion at the impact
point, marking the rocket with the sentinel id `-1`, and deactivating every
city and turret whose x position is within 30 of the impact x. -/
noncomputable def rocketsUpdate : List Rocket → List City → List Turret → List Explosion → ℤ →
    RockOut
  | [], cs, ts, es, n => ⟨[], cs, ts, es, n⟩
  | r :: rs, cs, ts, es, n =>
    match moveCur r.start r.target r.current r.speed with
    | none =>
      let o := rocketsUpdate rs cs ts es n
      { o with rockets := { r with current := none } :: o.rockets }
    | some p =>
      if p.y ≥ r.target.y then
        let cs2 := cs.map fun c => if c.active ∧ |c.x - p.x| < 30 then { c with active := false } else c
        let ts2 := ts.map fun t => if t.active ∧ |t.x - p.x| < 30 then { t with active := false } else t
        let es2 := es ++ [⟨n, p, 0, 30, true, false⟩]
        let o := rocketsUpdate rs cs2 ts2 es2 (n + 1)
        { o with rockets := { r with current := some p, id := -1 } :: o.rockets }
      else
        let o := rocketsUpdate rs cs ts es n
        { o with rockets := { r with current := some p } :: o.rockets }

/-- Sub-step 2, rocket kinematics and ground-impact resolution
(App.tsx lines 197-229), ending with the sentinel filter
`rockets = rockets.filter(r => r.id !== -1)` (line 229). -/
noncomputable def rocketStep (w : World) : World :=
  let o := rocketsUpdate w.rockets w.cities w.turrets w.explosions w.nextId
  { w with
      rockets := o.rockets.filter fun r => r.id != -1,
      cities := o.cities,
      turrets := o.turrets,
      explosions := o.explosions,
      nextId := o.nextId }

/-- A missile after its kinematics move of this tick. -/
noncomputable def moveMissile (m : Missile) : Missile :=
  { m with current := moveCur m.start m.target m.current m.speed }

/-- The missile arrival test (App.tsx line 243): the moved missile impacts
when the remaining distance to its target is below its speed.  A NaN
position compares false. -/
noncomputable def missileHitB (m : Missile) : Bool :=
  match m.current with
  | none => false
  | some p => decide (getDistance p m.target < m.speed)

/-- Accumulator for the missile update pass. -/
structure MisOut where
  missiles : List Missile
  explosions : List Explosion
  nextId : ℤ

/-- The body of the missile `forEach` (App.tsx lines 232-254): move the
missile; if it has arrived, push a `maxRadius = 80` explosion at the
missile's intended target point and mark the missile with the sentinel
id `-1`. -/
noncomputable def missilesUpdate : List Missile → List Explosion → ℤ → MisOut
  | [], es, n => ⟨[], es, n⟩
  | m :: ms, es, n =>
    let m2 := moveMissile m
    if missileHitB m2 then
      let o := missilesUpdate ms (es ++ [⟨n, m2.target, 0, 80, true, false⟩]) (n + 1)
      { o with missiles := { m2 with id := -1 } :: o.missiles }
    else
      let o := missilesUpdate ms es n
      { o with missiles := m2 :: o.missiles }

/-- Sub-step 3, missile kinematics and impact resolution
(App.tsx lines 232-255), ending with the sentinel filter (line 255). -/
noncomputable def missileStep (w : World) : World :=
  let o := missilesUpdate w.missiles w.explosions w.nextId
  { w with
      missiles := o.missiles.filter fun m => m.id != -1,
      explosions := o.explosions,
      nextId := o.nextId }

/-- The inner rocket scan of one explosion (App.tsx lines 268-282): every
rocket inside the radius is marked with the sentinel id (whether or not it
was already marked), one +20 award is emitted, and a chained
`maxRadius = 30` explosion is recorded at the rocket's position.  Returns
the rescanned rockets, the chained explosions in creation order, the number
of awards, and the advanced id counter. -/
noncomputable def expScan (e : Explosion) : List Rocket → ℤ → List Rocket × List Explosion × ℕ × ℤ
  | [], n => ([], [], 0, n)
  | r :: rs, n =>
    if hitB e r then
      let o := expScan e rs (n + 1)
      ({ r with id := -1 } :: o.1, ⟨n, r.current.getD ⟨0, 0⟩, 0, 30, true, false⟩ :: o.2.1,
        o.2.2.1 + 1, o.2.2.2)
    else
      let o := expScan e rs n
      (r :: o.1, o.2.1, o.2.2.1, o.2.2.2)

/-- Accumulator for the explosion update pass. -/
structure ExpOut where
  exps : List Explosion
  rockets : List Rocket
  chains : List Explosion
  awards : ℕ
  nextId : ℤ

/-- The explosion `forEach` (App.tsx lines 258-283).  JavaScript's
`forEach` visits only the elements present when the iteration began, so the
chained explosions pushed during the pass are collected separately and
never themselves animated or scanned within this tick; in the backing array
they sit after the original elements, in creation order. -/
noncomputable def expsUpdate : List Explosion → List Rocket → ℤ → ExpOut
  | [], rs, n => ⟨[], rs, [], 0, n⟩
  | e :: es, rs, n =>
    let e2 := updExp e
    let s := expScan e2 rs n
    let o := expsUpdate es s.1 s.2.2.2
    { o with
        exps := e2 :: o.exps,
        chains := s.2.1 ++ o.chains,
        awards := s.2.2.1 + o.awards }

/-- Sub-step 4, the explosion engine (App.tsx lines 258-284): animate each
pre-existing explosion, scan the rockets, accumulate `setScore` awards of
20 each, append the chained explosions, and finally purge every explosion
whose `done` flag is set (line 284).  The marked rockets are NOT filtered
here — the source has no rocket filter in this sub-step. -/
noncomputable def explosionStep (w : World) : World :=
  let o := expsUpdate w.explosions w.rockets w.nextId
  { w with
      explosions := (o.exps ++ o.chains).filter fun e => !e.done,
      rockets := o.rockets,
      score := w.score + 20 * o.awards,
      nextId := o.nextId }

/-- Sub-step 5, the win/loss evaluator (App.tsx lines 286-292).  The two
`if` statements are independent (no `else`): both `setGameState` calls can
run, and React commits the LAST queued value, so a simultaneous win and
loss resolves to `LOST`.  `s0` is the closure-captured `score` of this
render, i.e. the committed score at tick entry — the `setScore` updates
queued earlier in this same tick are not yet visible to it. -/
def evalStep (s0 : ℕ) (w : World) : World :=
  let g1 := if s0 ≥ 1000 then GState.WON else w.gameState
  let g2 := if w.turrets.all (fun t => !t.active) then GState.LOST else g1
  { w with gameState := g2 }

/-- One full tick of the game loop (App.tsx lines 161-293, the drawing
section excluded): bail out unless the match is in progress, then run
spawner, rocket pass, missile pass, explosion engine, and the win/loss
evaluator.  The closure-captured `score` read by the spawner and the
evaluator is the committed score at tick entry. -/
noncomputable def tick (inp : TickInput) (w : World) : World :=
  if w.gameState = GState.PLAYING then
    evalStep w.score (explosionStep (missileStep (rocketStep (spawnStep inp w))))
  else w

/-- The turret-selection fold of the click handler (App.tsx lines 416-427):
scan the turrets in array order, keeping the index and horizontal distance
of the closest `active` turret with positive ammo; a strict `<` comparison
makes the first of equally distant turrets win.  `minDist` starts at
Infinity, so the first eligible turret always replaces the empty
accumulator. -/
noncomputable def selTurret (x : ℝ) : List Turret → ℕ → Option (ℕ × ℝ) → Option (ℕ × ℝ)
  | [], _, best => best
  | t :: ts, i, best =>
    if t.active ∧ t.ammo > 0 then
      let d := |t.x - x|
      match best with
      | none => selTurret x ts (i + 1) (some (i, d))
      | some (j, bd) =>
        if d < bd then selTurret x ts (i + 1) (some (i, d))
        else selTurret x ts (i + 1) (some (j, bd))
    else selTurret x ts (i + 1) best

/-- The input router (App.tsx lines 402-440, `handleCanvasClick`): ignore
the click unless the match is in progress; otherwise fire from the closest
active turret with ammo, if any: decrement its ammo by 1 and append a
missile starting at `(turret.x, height - 50)` aimed at the click point with
speed 6.  `hgt` is `canvas.height`.  (The DOM coordinate conversion of
lines 408-413 is presentation and happens before `x`/`y` reach the core.) -/
noncomputable def fireAt (w : World) (x y hgt : ℝ) : World :=
  if w.gameState = GState.PLAYING then
    match selTurret x w.turrets 0 none with
    | none => w
    | some (i, _) =>
      match w.turrets.get? i with
      | none => w
      | some t =>
        { w with
            turrets := w.turrets.set i { t with ammo := t.ammo - 1 },
            missiles := w.missiles ++
              [⟨w.nextId, ⟨t.x, hgt - 50⟩, some ⟨t.x, hgt - 50⟩, ⟨x, y⟩, 6, i⟩],
            nextId := w.nextId + 1 }
  else w

noncomputable def turret6 : Turret := ⟨1, 100, 5, 20, true⟩

noncomputable def w6 : World := ⟨[], [], [], [], [turret6], 0, 7, 0, GState.PLAYING⟩

noncomputable def tur1 : Turret := ⟨1, 100, 0, 20, false⟩

noncomputable def tur2 : Turret := ⟨2, 300, 3, 40, false⟩

noncomputable def tur3 : Turret := ⟨3, 500, 0, 20, false⟩

noncomputable def w2 : World := ⟨[], [], [], [], [tur1, tur2, tur3], 1000, 10, 0, GState.PLAYING⟩

noncomputable def inp0 : TickInput := ⟨0, 800, 600, 0, 0⟩

/-- A freshly created explosion, as pushed by every creation site
(App.tsx lines 210-217, 244-251, 273-280): radius 0, growing, not done. -/
noncomputable def mkExp0 (i : ℤ) (p : RPoint) (M : ℝ) : Explosion := ⟨i, p, 0, M, true, false⟩

/-- The properties every chained explosion satisfies at the end of the tick
in which it was created: still radius 0, growing, not done, `maxRadius` 30;
and on its first animation step of the NEXT tick it grows to radius 1.5 and
keeps growing. -/
noncomputable def chainOkB (c : Explosion) : Bool :=
  decide (c.radius = 0) && c.growing && !c.done && decide (c.maxRadius = 30) &&
    decide ((updExp c).radius = 1.5) && (updExp c).growing

/-- The total number of (explosion, rocket) containment pairs of one
explosion-engine pass: for each pre-existing explosion (with its radius
updated this tick), the number of rockets inside its radius.  Each pair
yields one +20 award. -/
noncomputable def totalHits (es : List Explosion) (rs : List Rocket) : ℕ :=
  (es.map fun e => rs.countP fun r => hitB (updExp e) r).sum

noncomputable def r1 : Rocket := ⟨1, ⟨100, 0⟩, some ⟨100, 100⟩, ⟨100, 200⟩, 1⟩

noncomputable def eA : Explosion := ⟨2, ⟨100, 100⟩, 10, 30, true, false⟩

noncomputable def eB : Explosion := ⟨3, ⟨100, 100⟩, 10, 30, true, false⟩

noncomputable def w1 : World := ⟨[r1], [], [eA, eB], [], [], 0, 4, 0, GState.PLAYING⟩

/-- The observation key of an explosion: position, radius and maximum
radius, with the (arbitrary) id erased. -/
noncomputable def expKey (e : Explosion) : ℝ × ℝ × ℝ × ℝ :=
  (e.pos.x, e.pos.y, e.radius, e.maxRadius)

noncomputable def m9 : Missile := ⟨5, ⟨0, 0⟩, some ⟨0, 0⟩, ⟨0, 10⟩, 6, 0⟩

noncomputable def w9 : World := ⟨[], [m9], [], [], [], 0, 6, 0, GState.PLAYING⟩

/-- The Euclidean length of the fixed direction vector from `s` to `t`, as
computed inside the kinematics update (App.tsx lines 198-200). -/
noncomputable def dirDist (s t : RPoint) : ℝ :=
  Real.sqrt ((t.x - s.x) * (t.x - s.x) + (t.y - s.y) * (t.y - s.y))

noncomputable def r3 : Rocket := ⟨1, ⟨100, 0⟩, some ⟨100, 50⟩, ⟨100, 200⟩, 1⟩

noncomputable def e3 : Explosion := ⟨2, ⟨100, 51⟩, 10, 30, true, false⟩

noncomputable def t3 : Turret := ⟨3, 400, 20, 20, true⟩

noncomputable def w3 : World := ⟨[r3], [], [e3], [], [t3], 0, 4, 0, GState.PLAYING⟩

noncomputable def w3b : World :=
  ⟨[⟨1, ⟨100, 0⟩, some ⟨100, 51⟩, ⟨100, 200⟩, 1⟩], [], [e3], [], [t3], 0, 4, 0, GState.PLAYING⟩

noncomputable def inp3 : TickInput := ⟨0, 800, 600, 0, 0⟩

/-- The successive positions of a projectile with fixed `start`, `target`
and `speed`, starting at `current = start` (as the spawner sets it,
App.tsx lines 184-191) and applying the per-tick kinematics update
(lines 198-205) once per tick. -/
noncomputable def rocketTraj (s t : RPoint) (v : ℝ) : ℕ → Option RPoint :=
  fun n => (fun c => moveCur s t c v)^[n] (some s)

/-- Membership of the ray that leaves `s` toward `t`. -/
def onRay (s t p : RPoint) : Prop :=
  ∃ k : ℝ, 0 ≤ k ∧ p.x = s.x + k * (t.x - s.x) ∧ p.y = s.y + k * (t.y - s.y)

set_option maxRecDepth 8000

theorem getDistance_self (p : RPoint) : getDistance p p = 0 := by
  simp [getDistance]

/-- Claim C4 (amended): the kinematics update is unguarded; it produces the
NaN-corrupted position (modelled `none`) exactly when `start == target`,
instead of leaving the position unchanged. -/
theorem moveStep_none_iff (s t c : RPoint) (v : ℝ) :
    moveStep s t c v = none ↔ t = s := by
  have key : Real.sqrt ((t.x - s.x) * (t.x - s.x) + (t.y - s.y) * (t.y - s.y)) = 0 ↔ t = s := by
    rw [Real.sqrt_eq_zero']
    constructor
    · intro h
      have hx : t.x - s.x = 0 := by
        nlinarith [mul_self_nonneg (t.x - s.x), mul_self_nonneg (t.y - s.y)]
      have hy : t.y - s.y = 0 := by
        nlinarith [mul_self_nonneg (t.x - s.x), mul_self_nonneg (t.y - s.y)]
      ext
      · linarith
      · linarith
    · intro h
      rw [h]
      simp
  simp only [moveStep]
  by_cases h : Real.sqrt ((t.x - s.x) * (t.x - s.x) + (t.y - s.y) * (t.y - s.y)) = 0
  · rw [if_pos h]
    exact iff_of_true rfl (key.mp h)
  · rw [if_neg h]
    exact iff_of_false (by simp) fun he => h (key.mpr he)

/-- Claim C4, counterexample: a projectile with `start == target` is NOT
guarded to zero velocity; the division by the zero distance yields NaN
(modelled `none`) and the position is corrupted, not left unchanged. -/
theorem kinematics_unguarded_counterexample :
    moveStep ⟨100, 100⟩ ⟨100, 100⟩ ⟨100, 100⟩ 5 = none ∧
      moveStep ⟨100, 100⟩ ⟨100, 100⟩ ⟨100, 100⟩ 5 ≠ some ⟨100, 100⟩ := by
  have h : moveStep ⟨100, 100⟩ ⟨100, 100⟩ ⟨100, 100⟩ 5 = none := by
    simp [moveStep]
  exact ⟨h, by rw [h]; simp⟩

/-- Claim C6, counterexample: with canvas height 600, the missile fired from
the turret at x = 100 toward (400, 300) starts at y = 550 = height - 50,
not at groundY - 50 = height - 70 = 530. -/
theorem missile_start_counterexample :
    ((fireAt w6 400 300 600).missiles.map fun m =>
        (m.start.x, m.start.y, m.target.x, m.target.y, m.speed)) =
      [(100, 550, 400, 300, 6)] ∧ (550 : ℝ) ≠ 600 - 70 := by
  constructor
  · simp only [fireAt, w6, turret6, selTurret]
    norm_num
  · norm_num

theorem selTurret_sound (x : ℝ) (L : List Turret) :
    ∀ (ts : List Turret) (i : ℕ) (acc : Option (ℕ × ℝ)),
      (∀ k, ts.get? k = L.get? (i + k)) →
      (∀ j d, acc = some (j, d) → ∃ t, L.get? j = some t ∧ t.active = true ∧ 0 < t.ammo) →
      ∀ j d, selTurret x ts i acc = some (j, d) →
        ∃ t, L.get? j = some t ∧ t.active = true ∧ 0 < t.ammo := by
  intro ts
  induction ts with
  | nil =>
    intro i acc _ hacc j d hsel
    exact hacc j d hsel
  | cons t ts ih =>
    intro i acc hk hacc j d hsel
    have hksucc : ∀ k, ts.get? k = L.get? (i + 1 + k) := by
      intro k
      have := hk (k + 1)
      simpa [Nat.add_assoc, Nat.add_comm 1 k] using this
    have hhead : L.get? i = some t := by
      have := hk 0
      simpa using this.symm
    by_cases helig : t.active = true ∧ 0 < t.ammo
    · have hnew : ∀ j d, some (i, |t.x - x|) = some (j, d) →
          ∃ t', L.get? j = some t' ∧ t'.active = true ∧ 0 < t'.ammo := by
        intro j d hjd
        have hj : i = j := by
          have := Option.some.inj hjd
          exact congrArg Prod.fst this
        exact ⟨t, hj ▸ hhead, helig.1, helig.2⟩
      rw [selTurret, if_pos (by simpa using helig)] at hsel
      match acc, hacc with
      | none, _ =>
        exact ih (i + 1) (some (i, |t.x - x|)) hksucc hnew j d hsel
      | some (j0, bd), hacc =>
        simp only at hsel
        by_cases hlt : |t.x - x| < bd
        · rw [if_pos hlt] at hsel
          exact ih (i + 1) (some (i, |t.x - x|)) hksucc hnew j d hsel
        · rw [if_neg hlt] at hsel
          exact ih (i + 1) (some (j0, bd)) hksucc hacc j d hsel
    · rw [selTurret, if_neg (by simpa using helig)] at hsel
      exact ih (i + 1) acc hksucc hacc j d hsel

theorem fireAt_spec (w : World) (x y hgt : ℝ) (i : ℕ) (d : ℝ)
    (hPlay : w.gameState = GState.PLAYING)
    (hsel : selTurret x w.turrets 0 none = some (i, d)) :
    ∃ t, w.turrets.get? i = some t ∧ t.active = true ∧ 0 < t.ammo ∧
      fireAt w x y hgt = { w with
        turrets := w.turrets.set i { t with ammo := t.ammo - 1 },
        missiles := w.missiles ++
          [⟨w.nextId, ⟨t.x, hgt - 50⟩, some ⟨t.x, hgt - 50⟩, ⟨x, y⟩, 6, i⟩],
        nextId := w.nextId + 1 } := by
  obtain ⟨t, hget, hact, hammo⟩ :=
    selTurret_sound x w.turrets w.turrets 0 none (by intro k; simp)
      (by intro _ _ h; cases h) i d hsel
  refine ⟨t, hget, hact, hammo, ?_⟩
  simp only [fireAt, if_pos hPlay, hsel, hget]

theorem fireAt_noFire (w : World) (x y hgt : ℝ)
    (h : w.gameState ≠ GState.PLAYING ∨ selTurret x w.turrets 0 none = none) :
    fireAt w x y hgt = w := by
  rcases h with h | h
  · simp only [fireAt, if_neg h]
  · by_cases hPlay : w.gameState = GState.PLAYING
    · simp only [fireAt, if_pos hPlay, h]
    · simp only [fireAt, if_neg hPlay]

theorem spawnStep_turrets (inp : TickInput) (w : World) :
    (spawnStep inp w).turrets = w.turrets := by
  simp only [spawnStep]
  split
  · split
    · rfl
    · rfl
  · rfl

theorem spawnStep_cities (inp : TickInput) (w : World) :
    (spawnStep inp w).cities = w.cities := by
  simp only [spawnStep]
  split
  · split
    · rfl
    · rfl
  · rfl

theorem spawnStep_score (inp : TickInput) (w : World) :
    (spawnStep inp w).score = w.score := by
  simp only [spawnStep]
  split
  · split
    · rfl
    · rfl
  · rfl

theorem missileStep_turrets (w : World) : (missileStep w).turrets = w.turrets := rfl

theorem missileStep_score (w : World) : (missileStep w).score = w.score := rfl

theorem missileStep_rockets (w : World) : (missileStep w).rockets = w.rockets := rfl

theorem explosionStep_turrets (w : World) : (explosionStep w).turrets = w.turrets := rfl

theorem evalStep_turrets (s0 : ℕ) (w : World) : (evalStep s0 w).turrets = w.turrets := rfl

theorem evalStep_score (s0 : ℕ) (w : World) : (evalStep s0 w).score = w.score := rfl

theorem evalStep_rockets (s0 : ℕ) (w : World) : (evalStep s0 w).rockets = w.rockets := rfl

theorem damageTurret_ammo (p : RPoint) (t : Turret) :
    (if t.active ∧ |t.x - p.x| < 30 then { t with active := false } else t).ammo = t.ammo := by
  split <;> rfl

theorem rocketsUpdate_turrets_ammo :
    ∀ (rs : List Rocket) (cs : List City) (ts : List Turret) (es : List Explosion) (n : ℤ),
      ((rocketsUpdate rs cs ts es n).turrets.map fun t => t.ammo) = ts.map fun t => t.ammo := by
  intro rs
  induction rs with
  | nil => intro cs ts es n; rfl
  | cons r rs ih =>
    intro cs ts es n
    unfold rocketsUpdate
    cases hmv : moveCur r.start r.target r.current r.speed with
    | none => exact ih cs ts es n
    | some p =>
      dsimp only
      by_cases himp : p.y ≥ r.target.y
      · rw [if_pos himp]
        show ((rocketsUpdate rs _ (ts.map fun t =>
            if t.active ∧ |t.x - p.x| < 30 then { t with active := false } else t) _ _).turrets.map
              fun t => t.ammo) = ts.map fun t => t.ammo
        rw [ih, List.map_map]
        exact List.map_congr_left fun t _ => damageTurret_ammo p t
      · rw [if_neg himp]
        exact ih cs ts es n

theorem rocketsUpdate_turrets_inactive :
    ∀ (rs : List Rocket) (cs : List City) (ts : List Turret) (es : List Explosion) (n : ℤ),
      (∀ t ∈ ts, t.active = false) →
      ∀ t ∈ (rocketsUpdate rs cs ts es n).turrets, t.active = false := by
  intro rs
  induction rs with
  | nil => intro cs ts es n h; exact h
  | cons r rs ih =>
    intro cs ts es n h
    unfold rocketsUpdate
    cases hmv : moveCur r.start r.target r.current r.speed with
    | none => exact ih cs ts es n h
    | some p =>
      dsimp only
      by_cases himp : p.y ≥ r.target.y
      · rw [if_pos himp]
        dsimp only
        refine ih _ _ _ _ ?_
        intro t ht
        obtain ⟨t0, ht0, rfl⟩ := List.mem_map.mp ht
        split
        · rfl
        · exact h t0 ht0
      · rw [if_neg himp]
        exact ih cs ts es n h

theorem rocketStep_turrets_ammo (w : World) :
    ((rocketStep w).turrets.map fun t => t.ammo) = w.turrets.map fun t => t.ammo :=
  rocketsUpdate_turrets_ammo w.rockets w.cities w.turrets w.explosions w.nextId

theorem rocketStep_score (w : World) : (rocketStep w).score = w.score := rfl

theorem tick_turrets_ammo (inp : TickInput) (w : World) :
    ((tick inp w).turrets.map fun t => t.ammo) = w.turrets.map fun t => t.ammo := by
  unfold tick
  by_cases h : w.gameState = GState.PLAYING
  · rw [if_pos h, evalStep_turrets, explosionStep_turrets, missileStep_turrets,
      rocketStep_turrets_ammo, spawnStep_turrets]
  · rw [if_neg h]

/-- Claim C6 (amended): every successful firing creates one missile starting
at `(turret.x, height - 50)` — 30 units above the `height - 20` ground
plane, i.e. groundY - 30, not groundY - 50 — targeting the clicked point
`(x, y)` with fixed speed 6. -/
theorem fireAt_missile_start (w : World) (x y hgt : ℝ) (i : ℕ) (d : ℝ)
    (hPlay : w.gameState = GState.PLAYING)
    (hsel : selTurret x w.turrets 0 none = some (i, d)) :
    ∃ t, w.turrets.get? i = some t ∧ t.active = true ∧ 0 < t.ammo ∧
      (fireAt w x y hgt).missiles = w.missiles ++
        [⟨w.nextId, ⟨t.x, hgt - 50⟩, some ⟨t.x, hgt - 50⟩, ⟨x, y⟩, 6, i⟩] := by
  obtain ⟨t, h1, h2, h3, h4⟩ := fireAt_spec w x y hgt i d hPlay hsel
  exact ⟨t, h1, h2, h3, by rw [h4]⟩

theorem sel_w6 : selTurret 400 w6.turrets 0 none = some (0, 300) := by
  have habs : |(100 : ℝ) - 400| = 300 := by
    rw [show (100 : ℝ) - 400 = -300 by norm_num, abs_neg, abs_of_pos] <;> norm_num
  simp [selTurret, w6, turret6, habs]

/-- Witness for claim C6 at the concrete state `w6`. -/
theorem fireAt_missile_start_witness :
    w6.gameState = GState.PLAYING ∧
      ∃ t, w6.turrets.get? 0 = some t ∧ t.active = true ∧ 0 < t.ammo ∧
        (fireAt w6 400 300 600).missiles = w6.missiles ++
          [⟨w6.nextId, ⟨t.x, 600 - 50⟩, some ⟨t.x, 600 - 50⟩, ⟨400, 300⟩, 6, 0⟩] :=
  ⟨rfl, fireAt_missile_start w6 400 300 600 0 300 rfl sel_w6⟩

/-- Claim C8: turret ammo never becomes negative: firing selects only
turrets with `active` and `ammo > 0` (so it is blocked at 0), a successful
fire decrements exactly the selected turret's ammo by 1 and leaves every
other turret unchanged, and the game tick never changes any turret's
ammo — only the input router's firing does. -/
theorem ammo_safety (w : World) (x y hgt : ℝ)
    (hpos : ∀ t ∈ w.turrets, 0 ≤ t.ammo) :
    (∀ t ∈ (fireAt w x y hgt).turrets, 0 ≤ t.ammo) ∧
    ((fireAt w x y hgt).turrets = w.turrets ∨
      ∃ i t, w.turrets.get? i = some t ∧ t.active = true ∧ 0 < t.ammo ∧
        (fireAt w x y hgt).turrets = w.turrets.set i { t with ammo := t.ammo - 1 }) ∧
    ∀ inp, ((tick inp w).turrets.map fun t => t.ammo) = w.turrets.map fun t => t.ammo := by
  by_cases hPlay : w.gameState = GState.PLAYING
  · cases hsel : selTurret x w.turrets 0 none with
    | none =>
      have he := fireAt_noFire w x y hgt (Or.inr hsel)
      rw [he]
      exact ⟨hpos, Or.inl rfl, fun inp => tick_turrets_ammo inp w⟩
    | some pr =>
      obtain ⟨i, d⟩ := pr
      obtain ⟨t, hget, hact, hammo, heq⟩ := fireAt_spec w x y hgt i d hPlay hsel
      refine ⟨?_, Or.inr ⟨i, t, hget, hact, hammo, by rw [heq]⟩,
        fun inp => tick_turrets_ammo inp w⟩
      intro t' ht'
      rw [heq] at ht'
      rcases List.mem_or_eq_of_mem_set ht' with h | h
      · exact hpos t' h
      · rw [h]
        dsimp only
        omega
  · have he : fireAt w x y hgt = w := fireAt_noFire w x y hgt (Or.inl hPlay)
    rw [he]
    exact ⟨hpos, Or.inl rfl, fun inp => tick_turrets_ammo inp w⟩

/-- Witness for claim C8 at the concrete state `w6`. -/
theorem ammo_safety_witness :
    (∀ t ∈ w6.turrets, 0 ≤ t.ammo) ∧
    ((∀ t ∈ (fireAt w6 400 300 600).turrets, 0 ≤ t.ammo) ∧
    ((fireAt w6 400 300 600).turrets = w6.turrets ∨
      ∃ i t, w6.turrets.get? i = some t ∧ t.active = true ∧ 0 < t.ammo ∧
        (fireAt w6 400 300 600).turrets = w6.turrets.set i { t with ammo := t.ammo - 1 }) ∧
    ∀ inp, ((tick inp w6).turrets.map fun t => t.ammo) = w6.turrets.map fun t => t.ammo) :=
  ⟨by intro t ht; simp [w6, turret6] at ht; rw [ht]; decide,
    ammo_safety w6 400 300 600 (by intro t ht; simp [w6, turret6] at ht; rw [ht]; decide)⟩

/-- Claim C2 (amended): in every tick where both the win condition
(cumulative score ≥ 1000) and the loss condition (every turret inactive)
hold, the match transitions to LOST, not WON: although the WON check is
evaluated first, the LOST state assignment executes afterwards and
overwrites it. -/
theorem lost_overrides_won (inp : TickInput) (w : World)
    (hPlay : w.gameState = GState.PLAYING) (hwin : 1000 ≤ w.score)
    (hinact : ∀ t ∈ w.turrets, t.active = false) :
    (tick inp w).gameState = GState.LOST := by
  unfold tick
  rw [if_pos hPlay]
  have h4 : ∀ t ∈ (explosionStep (missileStep (rocketStep (spawnStep inp w)))).turrets,
      t.active = false := by
    rw [explosionStep_turrets, missileStep_turrets]
    unfold rocketStep
    dsimp only
    apply rocketsUpdate_turrets_inactive
    rw [spawnStep_turrets]
    exact hinact
  have hall : ((explosionStep (missileStep (rocketStep (spawnStep inp w)))).turrets.all
      fun t => !t.active) = true := by
    rw [List.all_eq_true]
    intro t ht
    simp [h4 t ht]
  simp only [evalStep, hall]
  rfl

/-- Claim C2, counterexample: in the state `w2` the win condition
(score = 1000 ≥ 1000) and the loss condition (all three turrets inactive)
hold simultaneously, yet the tick transitions the match to LOST, not WON:
the two `if` statements of the evaluator are independent, and the later
`setGameState('LOST')` overwrites the earlier `setGameState('WON')`. -/
theorem won_lost_counterexample :
    1000 ≤ w2.score ∧ (∀ t ∈ w2.turrets, t.active = false) ∧
      (tick inp0 w2).gameState = GState.LOST ∧ (tick inp0 w2).gameState ≠ GState.WON := by
  have hspawn : spawnStep inp0 w2 = w2 := by
    rw [spawnStep, if_neg]
    show ¬inp0.time - w2.lastSpawn > spawnRate w2.score
    rw [spawnRate]
    show ¬(0 : ℝ) - 0 > max 500 (2000 - ((1000 : ℕ) : ℝ) / 100 * 200)
    rw [show ((1000 : ℕ) : ℝ) = 1000 by norm_num]
    rw [show (2000 : ℝ) - 1000 / 100 * 200 = 0 by norm_num]
    rw [max_eq_left (by norm_num : (0 : ℝ) ≤ 500)]
    norm_num
  have hrock : rocketStep w2 = w2 := by
    rw [rocketStep]
    rfl
  have hmis : missileStep w2 = w2 := rfl
  have hexp : explosionStep w2 = w2 := by
    rw [explosionStep]
    rfl
  have htick : (tick inp0 w2).gameState = GState.LOST := by
    rw [tick, if_pos (show w2.gameState = GState.PLAYING from rfl), hspawn, hrock, hmis, hexp, evalStep]
    rfl
  refine ⟨by rw [show w2.score = 1000 from rfl], ?_, htick, by rw [htick]; intro h; cases h⟩
  intro t ht
  simp only [w2, List.mem_cons, List.not_mem_nil, or_false] at ht
  rcases ht with h | h | h
  · rw [h]; rfl
  · rw [h]; rfl
  · rw [h]; rfl

/-- Witness for claim C2 at the concrete state `w2`. -/
theorem lost_overrides_won_witness :
    w2.gameState = GState.PLAYING ∧ 1000 ≤ w2.score ∧
      (∀ t ∈ w2.turrets, t.active = false) ∧ (tick inp0 w2).gameState = GState.LOST := by
  have hinact : ∀ t ∈ w2.turrets, t.active = false := by
    intro t ht
    simp only [w2, List.mem_cons, List.not_mem_nil, or_false] at ht
    rcases ht with h | h | h
    · rw [h]; rfl
    · rw [h]; rfl
    · rw [h]; rfl
  exact ⟨rfl, by rw [show w2.score = 1000 from rfl], hinact,
    lost_overrides_won inp0 w2 rfl (by rw [show w2.score = 1000 from rfl]) hinact⟩

theorem updExp_grow (e : Explosion) (hg : e.growing = true)
    (hlt : ¬e.radius + 1.5 ≥ e.maxRadius) :
    updExp e = { e with radius := e.radius + 1.5 } := by
  simp only [updExp, hg, if_true, if_neg hlt]

theorem updExp_switch (e : Explosion) (hg : e.growing = true)
    (hge : e.radius + 1.5 ≥ e.maxRadius) :
    updExp e = { e with radius := e.radius + 1.5, growing := false } := by
  simp only [updExp, hg, if_true, if_pos hge]

theorem updExp_shrink (e : Explosion) (hg : e.growing = false)
    (hgt : ¬e.radius - 0.8 ≤ 0) :
    updExp e = { e with radius := e.radius - 0.8 } := by
  simp only [updExp, hg, Bool.false_eq_true, if_false, if_neg hgt]

theorem updExp_done (e : Explosion) (hg : e.growing = false)
    (hle : e.radius - 0.8 ≤ 0) :
    updExp e = { e with radius := e.radius - 0.8, done := true } := by
  simp only [updExp, hg, Bool.false_eq_true, if_false, if_pos hle]

theorem updExp_iter_grow (e : Explosion) (hg : e.growing = true) :
    ∀ n : ℕ, e.radius + 1.5 * n < e.maxRadius →
      updExp^[n] e = { e with radius := e.radius + 1.5 * n } := by
  intro n
  induction n with
  | zero =>
    intro _
    simp
  | succ n ih =>
    intro h
    have hcast : ((n + 1 : ℕ) : ℝ) = (n : ℝ) + 1 := by push_cast; ring
    have hn : e.radius + 1.5 * n < e.maxRadius := by
      rw [hcast] at h
      nlinarith
    rw [Function.iterate_succ_apply', ih hn, updExp_grow]
    · congr 1
      rw [hcast]
      ring
    · exact hg
    · show ¬e.radius + 1.5 * n + 1.5 ≥ e.maxRadius
      rw [hcast] at h
      intro hge
      nlinarith

theorem updExp_iter_shrink (e : Explosion) (hg : e.growing = false) :
    ∀ j : ℕ, 0 < e.radius - 0.8 * j →
      updExp^[j] e = { e with radius := e.radius - 0.8 * j } := by
  intro j
  induction j with
  | zero =>
    intro _
    simp
  | succ j ih =>
    intro h
    have hcast : ((j + 1 : ℕ) : ℝ) = (j : ℝ) + 1 := by push_cast; ring
    have hj : 0 < e.radius - 0.8 * j := by
      rw [hcast] at h
      nlinarith
    rw [Function.iterate_succ_apply', ih hj, updExp_shrink]
    · congr 1
      rw [hcast]
      ring
    · exact hg
    · show ¬e.radius - 0.8 * j - 0.8 ≤ 0
      rw [hcast] at h
      intro hle
      nlinarith

theorem e30_grow (i : ℤ) (p : RPoint) (n : ℕ) (h : n ≤ 20) :
    updExp^[n] (mkExp0 i p 30) = ⟨i, p, 1.5 * n, 30, decide (n < 20), false⟩ := by
  rcases Nat.lt_or_ge n 20 with hn | hn
  · have hcast : (n : ℝ) ≤ 19 := by
      have : n ≤ 19 := by omega
      exact_mod_cast this
    have := updExp_iter_grow (mkExp0 i p 30) rfl n (by
      show (0 : ℝ) + 1.5 * n < 30
      nlinarith)
    rw [this]
    simp only [mkExp0, decide_eq_true (by exact hn : n < 20)]
    congr 1
    ring
  · have h20 : n = 20 := by omega
    subst h20
    have h19 := updExp_iter_grow (mkExp0 i p 30) rfl 19 (by
      show (0 : ℝ) + 1.5 * (19 : ℕ) < 30
      push_cast
      norm_num)
    have hs : updExp^[20] (mkExp0 i p 30) = updExp (updExp^[19] (mkExp0 i p 30)) :=
      Function.iterate_succ_apply' updExp 19 (mkExp0 i p 30)
    rw [hs, h19, updExp_switch]
    · simp only [mkExp0]
      congr 1 <;> push_cast <;> norm_num
    · rfl
    · show (0 : ℝ) + 1.5 * (19 : ℕ) + 1.5 ≥ 30
      push_cast
      norm_num

theorem e30_top (i : ℤ) (p : RPoint) :
    updExp^[20] (mkExp0 i p 30) = ⟨i, p, 30, 30, false, false⟩ := by
  have := e30_grow i p 20 le_rfl
  rw [this]
  norm_num

theorem e30_shrink (i : ℤ) (p : RPoint) (j : ℕ) (h : j ≤ 37) :
    updExp^[20 + j] (mkExp0 i p 30) = ⟨i, p, 30 - 0.8 * j, 30, false, false⟩ := by
  have hcast : (j : ℝ) ≤ 37 := by exact_mod_cast h
  rw [show 20 + j = j + 20 by omega, Function.iterate_add_apply, e30_top]
  have := updExp_iter_shrink ⟨i, p, 30, 30, false, false⟩ rfl j (by
    show (0 : ℝ) < 30 - 0.8 * j
    nlinarith)
  rw [this]

theorem e30_dead (i : ℤ) (p : RPoint) :
    updExp^[58] (mkExp0 i p 30) = ⟨i, p, -(0.4 : ℝ), 30, false, true⟩ := by
  have h57 := e30_shrink i p 37 le_rfl
  have hs : updExp^[58] (mkExp0 i p 30) = updExp (updExp^[57] (mkExp0 i p 30)) :=
    Function.iterate_succ_apply' updExp 57 (mkExp0 i p 30)
  rw [hs, show (57 : ℕ) = 20 + 37 by omega, h57, updExp_done]
  · congr 1
    push_cast
    norm_num
  · rfl
  · show (30 : ℝ) - 0.8 * (37 : ℕ) - 0.8 ≤ 0
    push_cast
    norm_num

theorem e80_grow (i : ℤ) (p : RPoint) (n : ℕ) (h : n ≤ 54) :
    updExp^[n] (mkExp0 i p 80) = ⟨i, p, 1.5 * n, 80, decide (n < 54), false⟩ := by
  rcases Nat.lt_or_ge n 54 with hn | hn
  · have hcast : (n : ℝ) ≤ 53 := by
      have : n ≤ 53 := by omega
      exact_mod_cast this
    have := updExp_iter_grow (mkExp0 i p 80) rfl n (by
      show (0 : ℝ) + 1.5 * n < 80
      nlinarith)
    rw [this]
    simp only [mkExp0, decide_eq_true (by exact hn : n < 54)]
    congr 1
    ring
  · have h54 : n = 54 := by omega
    subst h54
    have h53 := updExp_iter_grow (mkExp0 i p 80) rfl 53 (by
      show (0 : ℝ) + 1.5 * (53 : ℕ) < 80
      push_cast
      norm_num)
    have hs : updExp^[54] (mkExp0 i p 80) = updExp (updExp^[53] (mkExp0 i p 80)) :=
      Function.iterate_succ_apply' updExp 53 (mkExp0 i p 80)
    rw [hs, h53, updExp_switch]
    · simp only [mkExp0]
      congr 1 <;> push_cast <;> norm_num
    · rfl
    · show (0 : ℝ) + 1.5 * (53 : ℕ) + 1.5 ≥ 80
      push_cast
      norm_num

theorem e80_top (i : ℤ) (p : RPoint) :
    updExp^[54] (mkExp0 i p 80) = ⟨i, p, 81, 80, false, false⟩ := by
  have := e80_grow i p 54 le_rfl
  rw [this]
  norm_num

theorem e80_shrink (i : ℤ) (p : RPoint) (j : ℕ) (h : j ≤ 101) :
    updExp^[54 + j] (mkExp0 i p 80) = ⟨i, p, 81 - 0.8 * j, 80, false, false⟩ := by
  have hcast : (j : ℝ) ≤ 101 := by exact_mod_cast h
  rw [show 54 + j = j + 54 by omega, Function.iterate_add_apply, e80_top]
  have := updExp_iter_shrink ⟨i, p, 81, 80, false, false⟩ rfl j (by
    show (0 : ℝ) < 81 - 0.8 * j
    nlinarith)
  rw [this]

theorem e80_dead (i : ℤ) (p : RPoint) :
    updExp^[156] (mkExp0 i p 80) = ⟨i, p, -(0.6 : ℝ), 80, false, true⟩ := by
  have h155 := e80_shrink i p 101 le_rfl
  have hs : updExp^[156] (mkExp0 i p 80) = updExp (updExp^[155] (mkExp0 i p 80)) :=
    Function.iterate_succ_apply' updExp 155 (mkExp0 i p 80)
  rw [hs, show (155 : ℕ) = 54 + 101 by omega, h155, updExp_done]
  · congr 1
    push_cast
    norm_num
  · rfl
  · show (81 : ℝ) - 0.8 * (101 : ℕ) - 0.8 ≤ 0
    push_cast
    norm_num

theorem explosionStep_all_not_done (w : World) :
    ((explosionStep w).explosions.all fun e => !e.done) = true := by
  rw [List.all_eq_true]
  intro e he
  have hx : (explosionStep w).explosions =
      ((expsUpdate w.explosions w.rockets w.nextId).exps ++
        (expsUpdate w.explosions w.rockets w.nextId).chains).filter fun e => !e.done := rfl
  rw [hx] at he
  exact (List.mem_filter.mp he).2

/-- Claim C5 (amended): the radius trace starts at 0, strictly increases by
1.5 per tick and strictly decreases by 0.8 per tick afterwards, and the
explosion is purged once done — but the shrink phase starts from the first
grown value that reaches `maxRadius`, namely `1.5 * ceil(maxRadius/1.5)`.
For `maxRadius = 30` (a multiple of 1.5) the lifetime is 58 ticks, matching
`ceil(30/1.5) + ceil(30/0.8)`; for `maxRadius = 80` the radius peaks at 81
and the lifetime is `ceil(80/1.5) + ceil(81/0.8) = 54 + 102 = 156` ticks,
not 154. -/
theorem explosion_trace (i : ℤ) (p : RPoint) :
    (updExp^[0] (mkExp0 i p 30)).radius = 0 ∧
    (∀ n : ℕ, n < 20 →
      (updExp^[n] (mkExp0 i p 30)).radius < (updExp^[n + 1] (mkExp0 i p 30)).radius) ∧
    (updExp^[20] (mkExp0 i p 30)).radius = 30 ∧
    (∀ j : ℕ, j < 38 →
      (updExp^[20 + j + 1] (mkExp0 i p 30)).radius < (updExp^[20 + j] (mkExp0 i p 30)).radius) ∧
    (∀ n : ℕ, n < 58 → (updExp^[n] (mkExp0 i p 30)).done = false) ∧
    (updExp^[58] (mkExp0 i p 30)).done = true ∧
    (58 : ℤ) = ⌈(30 : ℚ) / 1.5⌉ + ⌈(30 : ℚ) / 0.8⌉ ∧
    (updExp^[0] (mkExp0 i p 80)).radius = 0 ∧
    (∀ n : ℕ, n < 54 →
      (updExp^[n] (mkExp0 i p 80)).radius < (updExp^[n + 1] (mkExp0 i p 80)).radius) ∧
    (updExp^[54] (mkExp0 i p 80)).radius = 81 ∧
    (∀ j : ℕ, j < 102 →
      (updExp^[54 + j + 1] (mkExp0 i p 80)).radius < (updExp^[54 + j] (mkExp0 i p 80)).radius) ∧
    (∀ n : ℕ, n < 156 → (updExp^[n] (mkExp0 i p 80)).done = false) ∧
    (updExp^[156] (mkExp0 i p 80)).done = true ∧
    (156 : ℤ) = ⌈(80 : ℚ) / 1.5⌉ + ⌈(1.5 * 54 : ℚ) / 0.8⌉ ∧
    ∀ w : World, ((explosionStep w).explosions.all fun e => !e.done) = true := by
  refine ⟨by rfl, ?_, ?_, ?_, ?_, ?_, ?_, by rfl, ?_, ?_, ?_, ?_, ?_, ?_,
    explosionStep_all_not_done⟩
  · intro n hn
    rw [e30_grow i p n (by omega), e30_grow i p (n + 1) (by omega)]
    have : (n : ℝ) < (n : ℝ) + 1 := by linarith
    dsimp only
    push_cast
    nlinarith
  · rw [e30_top]
  · intro j hj
    rcases Nat.lt_or_ge j 37 with hlt | hge
    · rw [show 20 + j + 1 = 20 + (j + 1) by omega, e30_shrink i p (j + 1) (by omega),
        e30_shrink i p j (by omega)]
      dsimp only
      push_cast
      nlinarith [Nat.cast_nonneg (α := ℝ) j]
    · have hj37 : j = 37 := by omega
      subst hj37
      rw [show 20 + 37 + 1 = 58 by omega, e30_dead, e30_shrink i p 37 le_rfl]
      dsimp only
      push_cast
      norm_num
  · intro n hn
    rcases Nat.lt_or_ge n 21 with hle | hgt
    · rw [e30_grow i p n (by omega)]
    · obtain ⟨j, rfl⟩ : ∃ j, n = 20 + j := ⟨n - 20, by omega⟩
      rw [e30_shrink i p j (by omega)]
  · rw [e30_dead]
  · have h1 : ⌈(30 : ℚ) / 1.5⌉ = 20 := by
      rw [Int.ceil_eq_iff] <;> norm_num
    have h2 : ⌈(30 : ℚ) / 0.8⌉ = 38 := by
      rw [Int.ceil_eq_iff] <;> norm_num
    rw [h1, h2]
    norm_num
  · intro n hn
    rw [e80_grow i p n (by omega), e80_grow i p (n + 1) (by omega)]
    dsimp only
    push_cast
    nlinarith [Nat.cast_nonneg (α := ℝ) n]
  · rw [e80_top]
  · intro j hj
    rcases Nat.lt_or_ge j 101 with hlt | hge
    · rw [show 54 + j + 1 = 54 + (j + 1) by omega, e80_shrink i p (j + 1) (by omega),
        e80_shrink i p j (by omega)]
      dsimp only
      push_cast
      nlinarith [Nat.cast_nonneg (α := ℝ) j]
    · have hj101 : j = 101 := by omega
      subst hj101
      rw [show 54 + 101 + 1 = 156 by omega, e80_dead, e80_shrink i p 101 le_rfl]
      dsimp only
      push_cast
      norm_num
  · intro n hn
    rcases Nat.lt_or_ge n 55 with hle | hgt
    · rw [e80_grow i p n (by omega)]
    · obtain ⟨j, rfl⟩ : ∃ j, n = 54 + j := ⟨n - 54, by omega⟩
      rw [e80_shrink i p j (by omega)]
  · rw [e80_dead]
  · have h1 : ⌈(80 : ℚ) / 1.5⌉ = 54 := by
      rw [Int.ceil_eq_iff] <;> norm_num
    have h2 : ⌈(1.5 * 54 : ℚ) / 0.8⌉ = 102 := by
      rw [Int.ceil_eq_iff] <;> norm_num
    rw [h1, h2]
    norm_num

/-- Claim C5, counterexample: a `maxRadius = 80` explosion is still alive
after `ceil(80/1.5) + ceil(80/0.8) = 154` ticks (and after 155); its true
lifetime is 156 ticks, because the growth phase overshoots to radius 81. -/
theorem explosion_lifetime_counterexample :
    (updExp^[154] (mkExp0 0 ⟨0, 0⟩ 80)).done = false ∧
      (updExp^[155] (mkExp0 0 ⟨0, 0⟩ 80)).done = false ∧
      (154 : ℤ) = ⌈(80 : ℚ) / 1.5⌉ + ⌈(80 : ℚ) / 0.8⌉ := by
  refine ⟨?_, ?_, ?_⟩
  · rw [show (154 : ℕ) = 54 + 100 by omega, e80_shrink 0 ⟨0, 0⟩ 100 (by omega)]
  · rw [show (155 : ℕ) = 54 + 101 by omega, e80_shrink 0 ⟨0, 0⟩ 101 le_rfl]
  · have h1 : ⌈(80 : ℚ) / 1.5⌉ = 54 := by
      rw [Int.ceil_eq_iff] <;> norm_num
    have h2 : ⌈(80 : ℚ) / 0.8⌉ = 100 := by
      rw [Int.ceil_eq_iff] <;> norm_num
    rw [h1, h2]
    norm_num

/-- Witness for claim C5 at a concrete explosion and concrete tick
indices. -/
theorem explosion_trace_witness :
    (5 : ℕ) < 20 ∧
      (updExp^[5] (mkExp0 0 ⟨0, 0⟩ 30)).radius < (updExp^[6] (mkExp0 0 ⟨0, 0⟩ 30)).radius ∧
      (updExp^[58] (mkExp0 0 ⟨0, 0⟩ 30)).done = true ∧
      (updExp^[156] (mkExp0 0 ⟨0, 0⟩ 80)).done = true :=
  ⟨by norm_num, (explosion_trace 0 ⟨0, 0⟩).2.1 5 (by norm_num),
    (explosion_trace 0 ⟨0, 0⟩).2.2.2.2.2.1,
    (explosion_trace 0 ⟨0, 0⟩).2.2.2.2.2.2.2.2.2.2.2.2.1⟩

theorem hitB_id (e : Explosion) (r : Rocket) (j : ℤ) :
    hitB e { r with id := j } = hitB e r := rfl

theorem hitB_mark (e e2 : Explosion) (r : Rocket) :
    hitB e2 (if hitB e r then { r with id := -1 } else r) = hitB e2 r := by
  split <;> rfl

theorem expScan_rockets (e : Explosion) :
    ∀ (rs : List Rocket) (n : ℤ),
      (expScan e rs n).1 = rs.map fun r => if hitB e r then { r with id := -1 } else r := by
  intro rs
  induction rs with
  | nil => intro n; rfl
  | cons r rs ih =>
    intro n
    by_cases h : hitB e r
    · simp only [expScan, h, if_true, List.map_cons, ih]
    · simp only [expScan, h, Bool.false_eq_true, if_false, List.map_cons, ih]

theorem expScan_awards (e : Explosion) :
    ∀ (rs : List Rocket) (n : ℤ),
      (expScan e rs n).2.2.1 = rs.countP fun r => hitB e r := by
  intro rs
  induction rs with
  | nil => intro n; rfl
  | cons r rs ih =>
    intro n
    by_cases h : hitB e r
    · simp only [expScan, h, if_true, List.countP_cons, ih]
    · simp only [expScan, h, Bool.false_eq_true, if_false, List.countP_cons, ih]
      omega

theorem chainOkB_mk (i : ℤ) (p : RPoint) : chainOkB (mkExp0 i p 30) = true := by
  have hlt : ¬(mkExp0 i p 30).radius + 1.5 ≥ (mkExp0 i p 30).maxRadius := by
    show ¬(0 : ℝ) + 1.5 ≥ 30
    norm_num
  have hupd := updExp_grow (mkExp0 i p 30) rfl hlt
  simp only [mkExp0] at hupd
  simp only [chainOkB, mkExp0, hupd, Bool.and_eq_true, decide_eq_true_eq]
  norm_num

theorem expScan_chains (e : Explosion) :
    ∀ (rs : List Rocket) (n : ℤ), ((expScan e rs n).2.1.all chainOkB) = true := by
  intro rs
  induction rs with
  | nil => intro n; rfl
  | cons r rs ih =>
    intro n
    by_cases h : hitB e r
    · simp only [expScan, h, if_true, List.all_cons, ih, Bool.and_true]
      exact chainOkB_mk n (r.current.getD ⟨0, 0⟩)
    · simp only [expScan, h, Bool.false_eq_true, if_false, ih]

theorem expsUpdate_exps :
    ∀ (es : List Explosion) (rs : List Rocket) (n : ℤ),
      (expsUpdate es rs n).exps = es.map updExp := by
  intro es
  induction es with
  | nil => intro rs n; rfl
  | cons e es ih =>
    intro rs n
    simp only [expsUpdate, List.map_cons, ih]

theorem expsUpdate_rockets :
    ∀ (es : List Explosion) (rs : List Rocket) (n : ℤ),
      (expsUpdate es rs n).rockets =
        rs.map fun r =>
          if es.any (fun e => hitB (updExp e) r) then { r with id := -1 } else r := by
  intro es
  induction es with
  | nil =>
    intro rs n
    show rs = rs.map fun r => if false = true then { r with id := -1 } else r
    simp
  | cons e es ih =>
    intro rs n
    show (expsUpdate es (expScan (updExp e) rs n).1 _).rockets = _
    rw [ih, expScan_rockets, List.map_map]
    apply List.map_congr_left
    intro r _
    show (if es.any (fun e2 => hitB (updExp e2)
        (if hitB (updExp e) r then { r with id := -1 } else r)) = true
      then { (if hitB (updExp e) r then { r with id := -1 } else r) with id := -1 }
      else (if hitB (updExp e) r then { r with id := -1 } else r)) =
      if (e :: es).any (fun e2 => hitB (updExp e2) r) = true then { r with id := -1 } else r
    have hinv : ∀ e2 : Explosion, hitB (updExp e2)
        (if hitB (updExp e) r then { r with id := -1 } else r) = hitB (updExp e2) r :=
      fun e2 => hitB_mark (updExp e) (updExp e2) r
    simp only [hinv, List.any_cons]
    by_cases h : hitB (updExp e) r
    · simp only [h, if_true, Bool.true_or, ite_self]
    · simp only [h, Bool.false_eq_true, if_false, Bool.false_or]

theorem expsUpdate_awards :
    ∀ (es : List Explosion) (rs : List Rocket) (n : ℤ),
      (expsUpdate es rs n).awards = totalHits es rs := by
  intro es
  induction es with
  | nil => intro rs n; rfl
  | cons e es ih =>
    intro rs n
    show (expScan (updExp e) rs n).2.2.1 + (expsUpdate es (expScan (updExp e) rs n).1 _).awards =
      totalHits (e :: es) rs
    rw [ih, expScan_awards, expScan_rockets]
    have hmark : totalHits es (rs.map fun r =>
        if hitB (updExp e) r then { r with id := -1 } else r) = totalHits es rs := by
      unfold totalHits
      congr 1
      apply List.map_congr_left
      intro e2 _
      rw [List.countP_map]
      apply List.countP_congr
      intro r _
      show hitB (updExp e2) (if hitB (updExp e) r then { r with id := -1 } else r) = true ↔
        hitB (updExp e2) r = true
      rw [hitB_mark]
    rw [hmark]
    unfold totalHits
    simp

theorem expsUpdate_chains :
    ∀ (es : List Explosion) (rs : List Rocket) (n : ℤ),
      ((expsUpdate es rs n).chains.all chainOkB) = true := by
  intro es
  induction es with
  | nil => intro rs n; rfl
  | cons e es ih =>
    intro rs n
    show (((expScan (updExp e) rs n).2.1 ++
      (expsUpdate es (expScan (updExp e) rs n).1 _).chains).all chainOkB) = true
    rw [List.all_append, expScan_chains, ih]
    rfl

theorem explosionStep_score (w : World) :
    (explosionStep w).score = w.score + 20 * totalHits w.explosions w.rockets := by
  show w.score + 20 * (expsUpdate w.explosions w.rockets w.nextId).awards = _
  rw [expsUpdate_awards]

theorem explosionStep_rockets (w : World) :
    (explosionStep w).rockets =
      w.rockets.map fun r =>
        if w.explosions.any (fun e => hitB (updExp e) r) then { r with id := -1 } else r := by
  show (expsUpdate w.explosions w.rockets w.nextId).rockets = _
  rw [expsUpdate_rockets]

theorem explosionStep_explosions (w : World) :
    (explosionStep w).explosions =
      ((w.explosions.map updExp).filter fun e => !e.done) ++
        (expsUpdate w.explosions w.rockets w.nextId).chains := by
  show ((expsUpdate w.explosions w.rockets w.nextId).exps ++
      (expsUpdate w.explosions w.rockets w.nextId).chains).filter (fun e => !e.done) = _
  rw [List.filter_append, expsUpdate_exps]
  congr 1
  rw [List.filter_eq_self]
  intro c hc
  have hall := expsUpdate_chains w.explosions w.rockets w.nextId
  rw [List.all_eq_true] at hall
  have hok := hall c hc
  simp only [chainOkB, Bool.and_eq_true] at hok
  exact hok.1.1.1.2

theorem fireAt_score (w : World) : ∀ x y hgt : ℝ, (fireAt w x y hgt).score = w.score := by
  intro x y hgt
  unfold fireAt
  by_cases hPlay : w.gameState = GState.PLAYING
  · rw [if_pos hPlay]
    cases selTurret x w.turrets 0 none with
    | none => rfl
    | some pr =>
      obtain ⟨i, d⟩ := pr
      dsimp only
      cases w.turrets.get? i with
      | none => rfl
      | some t => rfl
  · rw [if_neg hPlay]

theorem tick_score_ge (inp : TickInput) (w : World) : w.score ≤ (tick inp w).score := by
  unfold tick
  by_cases hPlay : w.gameState = GState.PLAYING
  · rw [if_pos hPlay, evalStep_score, explosionStep_score, missileStep_score,
      rocketStep_score, spawnStep_score]
    exact Nat.le_add_right _ _
  · rw [if_neg hPlay]

/-- Claim C1 (amended): the cumulative score is monotonically non-decreasing
over the whole match (it never changes except in the explosion engine, which
only adds), and every award is exactly +20 — but the unit of award is one
(explosion, rocket) containment pair, not one destroyed rocket: a rocket
lying inside k overlapping explosion radii in the same tick is awarded k
times, because the collision scan does not skip already-marked rockets. -/
theorem score_award_formula (inp : TickInput) (w : World) :
    (explosionStep w).score = w.score + 20 * totalHits w.explosions w.rockets ∧
      w.score ≤ (tick inp w).score ∧
      ∀ x y hgt : ℝ, (fireAt w x y hgt).score = w.score :=
  ⟨explosionStep_score w, tick_score_ge inp w, fireAt_score w⟩

theorem hit_eA_r1 : hitB (updExp eA) r1 = true := by
  have hA : updExp eA = { eA with radius := 10 + 1.5 } :=
    updExp_grow eA rfl (by show ¬(10 : ℝ) + 1.5 ≥ 30; norm_num)
  rw [hA]
  show decide (getDistance eA.pos ⟨100, 100⟩ < 10 + 1.5) = true
  rw [decide_eq_true_eq, show eA.pos = (⟨100, 100⟩ : RPoint) from rfl, getDistance_self]
  norm_num

theorem hit_eB_r1 : hitB (updExp eB) r1 = true := by
  have hB : updExp eB = { eB with radius := 10 + 1.5 } :=
    updExp_grow eB rfl (by show ¬(10 : ℝ) + 1.5 ≥ 30; norm_num)
  rw [hB]
  show decide (getDistance eB.pos ⟨100, 100⟩ < 10 + 1.5) = true
  rw [decide_eq_true_eq, show eB.pos = (⟨100, 100⟩ : RPoint) from rfl, getDistance_self]
  norm_num

/-- Claim C1, counterexample: the explosion-engine scan does not skip rockets
already marked dead, so the single rocket of `w1`, lying inside the radii of
the two overlapping explosions `eA` and `eB`, is awarded twice in the same
tick: the score rises by 40, not by exactly 20. -/
theorem score_double_award_counterexample :
    w1.rockets.length = 1 ∧ w1.score = 0 ∧ (explosionStep w1).score = 40 := by
  refine ⟨rfl, rfl, ?_⟩
  have hcount : totalHits w1.explosions w1.rockets = 2 := by
    show totalHits [eA, eB] [r1] = 2
    unfold totalHits
    simp only [List.map_cons, List.map_nil, List.countP_cons, List.countP_nil,
      List.sum_cons, List.sum_nil, hit_eA_r1, hit_eB_r1, if_true]
    omega
  rw [explosionStep_score w1, hcount]
  rfl

/-- Claim C10: the explosion pass animates and scans only the explosions
present when it began: the output list is the updated pre-existing
explosions (minus the purged ones) followed by the chained explosions; every
chain still has radius 0, is growing, not done, has `maxRadius = 30`, and
first grows (to radius 1.5) on its following animation step; and both the
rocket marking and the score delta of the tick are determined solely by the
pre-existing explosions. -/
theorem chain_explosion_deferred (w : World) :
    (explosionStep w).explosions =
      ((w.explosions.map updExp).filter fun e => !e.done) ++
        (expsUpdate w.explosions w.rockets w.nextId).chains ∧
      ((expsUpdate w.explosions w.rockets w.nextId).chains.all chainOkB) = true ∧
      (explosionStep w).rockets =
        (w.rockets.map fun r =>
          if w.explosions.any (fun e => hitB (updExp e) r) then { r with id := -1 } else r) ∧
      (explosionStep w).score = w.score + 20 * totalHits w.explosions w.rockets :=
  ⟨explosionStep_explosions w, expsUpdate_chains w.explosions w.rockets w.nextId,
    explosionStep_rockets w, explosionStep_score w⟩

theorem missilesUpdate_missiles :
    ∀ (ms : List Missile) (es : List Explosion) (n : ℤ),
      (missilesUpdate ms es n).missiles = ms.map fun m =>
        if missileHitB (moveMissile m) then { moveMissile m with id := -1 }
        else moveMissile m := by
  intro ms
  induction ms with
  | nil => intro es n; rfl
  | cons m ms ih =>
    intro es n
    by_cases h : missileHitB (moveMissile m)
    · simp only [missilesUpdate, h, if_true, List.map_cons, ih]
    · simp only [missilesUpdate, h, Bool.false_eq_true, if_false, List.map_cons, ih]

theorem missilesUpdate_explosions :
    ∀ (ms : List Missile) (es : List Explosion) (n : ℤ),
      (missilesUpdate ms es n).explosions.map expKey =
        es.map expKey ++ ((ms.map moveMissile).filter missileHitB).map
          (fun m => (m.target.x, m.target.y, (0 : ℝ), (80 : ℝ))) := by
  intro ms
  induction ms with
  | nil =>
    intro es n
    show es.map expKey = _
    simp
  | cons m ms ih =>
    intro es n
    by_cases h : missileHitB (moveMissile m)
    · simp only [missilesUpdate, h, if_true, List.map_cons, List.filter_cons, ih,
        List.map_append, List.map_cons, List.map_nil, List.append_assoc]
      rfl
    · simp only [missilesUpdate, h, Bool.false_eq_true, if_false, List.map_cons,
        List.filter_cons, ih]

theorem filter_marked_missiles :
    ∀ ms : List Missile, (∀ m ∈ ms, m.id ≠ -1) →
      ((ms.map fun m =>
          if missileHitB (moveMissile m) then { moveMissile m with id := -1 }
          else moveMissile m).filter fun m => m.id != -1) =
        (ms.map moveMissile).filter fun m => !missileHitB m := by
  intro ms
  induction ms with
  | nil => intro _; rfl
  | cons m ms ih =>
    intro hids
    have hm : m.id ≠ -1 := hids m (List.mem_cons_self m ms)
    have hrest : ∀ m2 ∈ ms, m2.id ≠ -1 := fun m2 h2 => hids m2 (List.mem_cons_of_mem m h2)
    by_cases h : missileHitB (moveMissile m)
    · have hdrop : (({ moveMissile m with id := -1 } : Missile).id != -1) = false := by
        show ((-1 : ℤ) != -1) = false
        decide
      simp only [List.map_cons, List.filter_cons, h, if_true, Bool.not_true, hdrop,
        Bool.false_eq_true, if_false, ih hrest]
    · have hkeep : ((moveMissile m).id != -1) = true := by
        show (m.id != -1) = true
        exact bne_iff_ne.mpr hm
      simp only [List.map_cons, List.filter_cons, h, Bool.false_eq_true, if_false,
        Bool.not_false, hkeep, if_true, ih hrest]

/-- Claim C9: after the per-tick move, a missile impacts exactly when the
remaining Euclidean distance from its current position to its target is
below its speed: the surviving missiles are precisely the moved missiles
that did not impact (so every impacted missile is removed within this
sub-step), and the explosion list is extended by exactly one explosion per
impacted missile, placed at the missile's intended target point with
radius 0 and `maxRadius = 80`. -/
theorem missile_impact_spec (w : World) (hids : ∀ m ∈ w.missiles, m.id ≠ -1) :
    (missileStep w).missiles = (w.missiles.map moveMissile).filter (fun m => !missileHitB m) ∧
      (missileStep w).explosions.map expKey =
        w.explosions.map expKey ++
          ((w.missiles.map moveMissile).filter missileHitB).map
            (fun m => (m.target.x, m.target.y, (0 : ℝ), (80 : ℝ))) := by
  constructor
  · show ((missilesUpdate w.missiles w.explosions w.nextId).missiles.filter
      fun m => m.id != -1) = _
    rw [missilesUpdate_missiles]
    exact filter_marked_missiles w.missiles hids
  · show (missilesUpdate w.missiles w.explosions w.nextId).explosions.map expKey = _
    rw [missilesUpdate_explosions]

/-- Witness for claim C9 at the concrete state `w9`. -/
theorem missile_impact_spec_witness :
    (∀ m ∈ w9.missiles, m.id ≠ -1) ∧
      ((missileStep w9).missiles =
          (w9.missiles.map moveMissile).filter (fun m => !missileHitB m) ∧
        (missileStep w9).explosions.map expKey =
          w9.explosions.map expKey ++
            ((w9.missiles.map moveMissile).filter missileHitB).map
              (fun m => (m.target.x, m.target.y, (0 : ℝ), (80 : ℝ)))) :=
  ⟨by intro m hm; simp [w9, m9] at hm; rw [hm]; decide,
    missile_impact_spec w9 (by intro m hm; simp [w9, m9] at hm; rw [hm]; decide)⟩

/-- Claim C3 (amended): the rocket and missile sub-steps do complete their
own filtering before the next sub-step runs (their outputs never carry a
sentinel id), but the explosion engine removes no rocket at all — it only
marks them — and the evaluator reads the rocket collection unchanged, so a
rocket destroyed by an explosion stays in the collection, sentinel-marked,
until the NEXT tick's rocket sub-step filters it, after that sub-step's
kinematics and ground-impact pass has already processed it. -/
theorem substep_filter_timing (w : World) (s0 : ℕ) :
    ((rocketStep w).rockets.all fun r => r.id != -1) = true ∧
      ((missileStep w).missiles.all fun m => m.id != -1) = true ∧
      (explosionStep w).rockets.length = w.rockets.length ∧
      (evalStep s0 w).rockets = w.rockets := by
  refine ⟨?_, ?_, ?_, rfl⟩
  · rw [List.all_eq_true]
    intro r hr
    exact (List.mem_filter.mp hr).2
  · rw [List.all_eq_true]
    intro m hm
    exact (List.mem_filter.mp hm).2
  · rw [explosionStep_rockets, List.length_map]

theorem moveStep_some (s t c : RPoint) (v : ℝ) (h : dirDist s t ≠ 0) :
    moveStep s t c v =
      some ⟨c.x + (t.x - s.x) / dirDist s t * v, c.y + (t.y - s.y) / dirDist s t * v⟩ := by
  show (if dirDist s t = 0 then none else
    some (⟨c.x + (t.x - s.x) / dirDist s t * v, c.y + (t.y - s.y) / dirDist s t * v⟩ : RPoint)) = _
  exact if_neg h

theorem dist3 : dirDist r3.start r3.target = 200 := by
  show Real.sqrt (((100 : ℝ) - 100) * ((100 : ℝ) - 100) +
    ((200 : ℝ) - 0) * ((200 : ℝ) - 0)) = 200
  rw [show ((100 : ℝ) - 100) * ((100 : ℝ) - 100) + ((200 : ℝ) - 0) * ((200 : ℝ) - 0) = 200 ^ 2
    by norm_num]
  exact Real.sqrt_sq (by norm_num)

theorem move3 : moveCur r3.start r3.target r3.current r3.speed = some ⟨100, 51⟩ := by
  show moveStep r3.start r3.target ⟨100, 50⟩ r3.speed = some ⟨100, 51⟩
  rw [moveStep_some r3.start r3.target ⟨100, 50⟩ r3.speed (by rw [dist3]; norm_num), dist3]
  show some (⟨100 + ((100 : ℝ) - 100) / 200 * 1, 50 + ((200 : ℝ) - 0) / 200 * 1⟩ : RPoint) = _
  norm_num

theorem spawn3 : spawnStep inp3 w3 = w3 := by
  rw [spawnStep, if_neg]
  show ¬inp3.time - w3.lastSpawn > spawnRate w3.score
  rw [spawnRate]
  show ¬(0 : ℝ) - 0 > max 500 (2000 - ((0 : ℕ) : ℝ) / 100 * 200)
  rw [show (2000 : ℝ) - ((0 : ℕ) : ℝ) / 100 * 200 = 2000 by norm_num,
    max_eq_right (by norm_num : (500 : ℝ) ≤ 2000)]
  norm_num

theorem rock3 : rocketStep w3 = w3b := by
  have ho : rocketsUpdate w3.rockets w3.cities w3.turrets w3.explosions w3.nextId =
      ⟨[⟨1, ⟨100, 0⟩, some ⟨100, 51⟩, ⟨100, 200⟩, 1⟩], [], [t3], [e3], 4⟩ := by
    show rocketsUpdate [r3] [] [t3] [e3] 4 = _
    simp only [rocketsUpdate, move3]
    rw [if_neg]
    · rfl
    · show ¬(⟨100, 51⟩ : RPoint).y ≥ r3.target.y
      show ¬(51 : ℝ) ≥ 200
      norm_num
  show { w3 with
      rockets := (rocketsUpdate w3.rockets w3.cities w3.turrets w3.explosions
        w3.nextId).rockets.filter (fun r => r.id != -1),
      cities := (rocketsUpdate w3.rockets w3.cities w3.turrets w3.explosions w3.nextId).cities,
      turrets := (rocketsUpdate w3.rockets w3.cities w3.turrets w3.explosions w3.nextId).turrets,
      explosions := (rocketsUpdate w3.rockets w3.cities w3.turrets w3.explosions
        w3.nextId).explosions,
      nextId := (rocketsUpdate w3.rockets w3.cities w3.turrets w3.explosions
        w3.nextId).nextId } = w3b
  rw [ho]
  rfl

theorem hit3 : hitB (updExp e3) ⟨1, ⟨100, 0⟩, some ⟨100, 51⟩, ⟨100, 200⟩, 1⟩ = true := by
  have hE : updExp e3 = { e3 with radius := 10 + 1.5 } :=
    updExp_grow e3 rfl (by show ¬(10 : ℝ) + 1.5 ≥ 30; norm_num)
  rw [hE]
  show decide (getDistance e3.pos ⟨100, 51⟩ < 10 + 1.5) = true
  rw [decide_eq_true_eq, show e3.pos = (⟨100, 51⟩ : RPoint) from rfl, getDistance_self]
  norm_num

/-- Claim C3, counterexample: in `w3` the explosion `e3` destroys the rocket
during the explosion-engine pass, yet at the end of the full tick — and so
both at the moment the win/loss evaluator runs and in the state handed to
the next tick's kinematics and impact pass — the rocket collection still
contains that rocket, marked with the sentinel id -1. -/
theorem dead_rocket_counterexample :
    ((tick inp3 w3).rockets.map fun r => r.id) = [-1] ∧
      (tick inp3 w3).rockets.length = 1 := by
  have hrocks : (tick inp3 w3).rockets = (explosionStep w3b).rockets := by
    rw [tick, if_pos (show w3.gameState = GState.PLAYING from rfl), spawn3, rock3,
      show missileStep w3b = w3b from rfl, evalStep_rockets]
  have hexp : (explosionStep w3b).rockets =
      [⟨-1, ⟨100, 0⟩, some ⟨100, 51⟩, ⟨100, 200⟩, 1⟩] := by
    rw [explosionStep_rockets]
    simp only [w3b, List.map_cons, List.map_nil, List.any_cons, List.any_nil, hit3,
      Bool.or_false, if_true]
  rw [hrocks, hexp]
  exact ⟨rfl, rfl⟩

theorem dirDist_pos (s t : RPoint) (hy : s.y < t.y) : 0 < dirDist s t := by
  rw [dirDist]
  apply Real.sqrt_pos.mpr
  nlinarith [mul_self_nonneg (t.x - s.x)]

theorem rocketTraj_closed (s t : RPoint) (v : ℝ) (hy : s.y < t.y) :
    ∀ n : ℕ, rocketTraj s t v n =
      some ⟨s.x + n * (v / dirDist s t) * (t.x - s.x),
            s.y + n * (v / dirDist s t) * (t.y - s.y)⟩ := by
  have hd : dirDist s t ≠ 0 := ne_of_gt (dirDist_pos s t hy)
  intro n
  induction n with
  | zero =>
    show some s = _
    norm_num
  | succ n ih =>
    have hstep : rocketTraj s t v (n + 1) = moveCur s t (rocketTraj s t v n) v := by
      show (fun c => moveCur s t c v)^[n + 1] (some s) = _
      rw [Function.iterate_succ_apply']
      rfl
    rw [hstep, ih]
    show moveStep s t _ v = _
    rw [moveStep_some s t _ v hd]
    congr 1
    apply RPoint.ext
    · show (s.x + (n : ℝ) * (v / dirDist s t) * (t.x - s.x)) + (t.x - s.x) / dirDist s t * v =
        s.x + ((n + 1 : ℕ) : ℝ) * (v / dirDist s t) * (t.x - s.x)
      push_cast
      ring
    · show (s.y + (n : ℝ) * (v / dirDist s t) * (t.y - s.y)) + (t.y - s.y) / dirDist s t * v =
        s.y + ((n + 1 : ℕ) : ℝ) * (v / dirDist s t) * (t.y - s.y)
      push_cast
      ring

/-- Claim C7: for every projectile whose target lies strictly below its
start (as holds for every spawned rocket: start at y = 0, target at
y = height - 20) and whose speed is non-negative (every spawned rocket's
speed `(1 + score/500) * 0.8` is), the position after any number of
kinematics ticks lies on the ray from `start` toward `target` and its
y-coordinate is monotonically non-decreasing from each tick to the next;
moreover every rocket the spawner appends starts with `current = start` at
the top edge, non-negative speed, and target on the ground plane. -/
theorem rocket_ray_monotone (s t : RPoint) (v : ℝ) (hy : s.y < t.y) (hv : 0 ≤ v) :
    (∀ n : ℕ, ∃ p q : RPoint, rocketTraj s t v n = some p ∧
        rocketTraj s t v (n + 1) = some q ∧ onRay s t p ∧ p.y ≤ q.y) ∧
      ∀ (inp : TickInput) (w : World) (r : Rocket), r ∈ (spawnStep inp w).rockets →
        r ∈ w.rockets ∨
          (0 ≤ r.speed ∧ r.start.y = 0 ∧ r.current = some r.start ∧
            r.target.y = inp.height - 20) := by
  constructor
  · intro n
    have hd : 0 < dirDist s t := dirDist_pos s t hy
    have hk : 0 ≤ (n : ℝ) * (v / dirDist s t) := by positivity
    have hk2 : 0 ≤ v / dirDist s t := by positivity
    refine ⟨_, _, rocketTraj_closed s t v hy n, rocketTraj_closed s t v hy (n + 1),
      ⟨(n : ℝ) * (v / dirDist s t), hk, rfl, rfl⟩, ?_⟩
    show s.y + n * (v / dirDist s t) * (t.y - s.y) ≤
      s.y + ((n : ℕ) + 1 : ℕ) * (v / dirDist s t) * (t.y - s.y)
    push_cast
    nlinarith
  · intro inp w r hr
    rw [spawnStep] at hr
    by_cases h1 : inp.time - w.lastSpawn > spawnRate w.score
    · rw [if_pos h1] at hr
      dsimp only at hr
      by_cases h2 : (activeTargetXs w).length > 0
      · rw [if_pos h2] at hr
        dsimp only at hr
        simp only [List.mem_append, List.mem_singleton] at hr
        rcases hr with hold | hnew
        · exact Or.inl hold
        · right
          rw [hnew]
          exact ⟨by positivity, rfl, rfl, rfl⟩
      · rw [if_neg h2] at hr
        exact Or.inl hr
    · rw [if_neg h1] at hr
      exact Or.inl hr

/-- Witness for claim C7 on the concrete trajectory from (0,0) toward
(3,4) at speed 1. -/
theorem rocket_ray_monotone_witness :
    ((⟨0, 0⟩ : RPoint).y < (⟨3, 4⟩ : RPoint).y ∧ (0 : ℝ) ≤ 1) ∧
      ∃ p q : RPoint, rocketTraj ⟨0, 0⟩ ⟨3, 4⟩ 1 2 = some p ∧
        rocketTraj ⟨0, 0⟩ ⟨3, 4⟩ 1 3 = some q ∧ onRay ⟨0, 0⟩ ⟨3, 4⟩ p ∧ p.y ≤ q.y :=
  ⟨⟨by show (0 : ℝ) < 4; norm_num, by norm_num⟩,
    (rocket_ray_monotone ⟨0, 0⟩ ⟨3, 4⟩ 1 (by show (0 : ℝ) < 4; norm_num) (by norm_num)).1 2⟩

end AnnDefense
